import Mathlib

set_option maxRecDepth 100000

/-!
Verification development for the Vantage InFusion controller bridge
(`src/vantageInfusion.ts`).  The TypeScript source is shallowly embedded:
JavaScript strings become `String`, JavaScript numbers appearing as parse
results become `Option Int` / `Option ℚ` (with `none` playing the role of
`NaN`), and a JavaScript exception is modelled by an explicit error flag or
an `Except` value.  All definitions are translated from the source file,
function by function; the few places where an external library (the XML
parser) is invoked are parameterised by an oracle function.
-/

/-! ## JavaScript primitive helpers -/

/-- Whitespace characters recognised by the JavaScript number parsers. -/
def isWsChar (c : Char) : Bool :=
  c = ' ' || c = '\t' || c = '\n' || c = '\r'

/-- Numeric value of a decimal digit list (most significant first). -/
def natOfDec (ds : List Char) : Nat :=
  ds.foldl (fun acc c => acc * 10 + (c.toNat - '0'.toNat)) 0

/-- Is `c` a hexadecimal digit? -/
def isHexDigit (c : Char) : Bool :=
  c.isDigit || ('a' ≤ c && c ≤ 'f') || ('A' ≤ c && c ≤ 'F')

/-- Numeric value of a hexadecimal digit. -/
def hexDigitVal (c : Char) : Nat :=
  if c.isDigit then c.toNat - '0'.toNat
  else if 'a' ≤ c && c ≤ 'f' then c.toNat - 'a'.toNat + 10
  else c.toNat - 'A'.toNat + 10

/-- Numeric value of a hexadecimal digit list (most significant first). -/
def natOfHex (ds : List Char) : Nat :=
  ds.foldl (fun acc c => acc * 16 + hexDigitVal c) 0

/-- Magnitude part of JavaScript `parseInt`: an optional `0x`/`0X` prefix
selects base 16, otherwise the maximal leading run of decimal digits is
taken; no digits at all gives `NaN` (`none`). -/
def jsParseIntMag (cs : List Char) : Option Nat :=
  match cs with
  | '0' :: c :: t =>
    if c = 'x' || c = 'X' then
      let ds := t.takeWhile isHexDigit
      if ds.isEmpty then none else some (natOfHex ds)
    else
      some (natOfDec (('0' :: c :: t).takeWhile Char.isDigit))
  | _ =>
    let ds := cs.takeWhile Char.isDigit
    if ds.isEmpty then none else some (natOfDec ds)

/-- JavaScript `parseInt(s)` (default radix): skip leading whitespace, an
optional sign, then parse the maximal valid digit run; `none` models `NaN`. -/
def jsParseInt (s : String) : Option Int :=
  let cs := s.toList.dropWhile isWsChar
  match cs with
  | '-' :: t => (jsParseIntMag t).map (fun n => -(n : Int))
  | '+' :: t => (jsParseIntMag t).map (fun n => (n : Int))
  | t => (jsParseIntMag t).map (fun n => (n : Int))

/-- `parseInt` applied to a possibly-undefined argument: `parseInt(undefined)`
coerces `undefined` to the string `"undefined"`, which parses to `NaN`. -/
def jsParseIntU (a : Option String) : Option Int :=
  match a with
  | none => none
  | some s => jsParseInt s

/-- Exponent suffix of JavaScript `parseFloat`: `e`/`E`, optional sign and
digits; if no digits follow, the exponent is not consumed (treated as 0). -/
def jsFloatExp (cs : List Char) : Int :=
  match cs with
  | e :: t =>
    if e = 'e' || e = 'E' then
      match t with
      | '-' :: u =>
        let ds := u.takeWhile Char.isDigit
        if ds.isEmpty then 0 else -(natOfDec ds : Int)
      | '+' :: u =>
        let ds := u.takeWhile Char.isDigit
        if ds.isEmpty then 0 else (natOfDec ds : Int)
      | u =>
        let ds := u.takeWhile Char.isDigit
        if ds.isEmpty then 0 else (natOfDec ds : Int)
    else 0
  | [] => 0

/-- Unsigned significand and exponent of `parseFloat`. -/
def jsParseFloatMag (cs : List Char) : Option ℚ :=
  let ip := cs.takeWhile Char.isDigit
  let r := cs.drop ip.length
  let fp := match r with
            | '.' :: t => t.takeWhile Char.isDigit
            | _ => []
  let r2 := match r with
            | '.' :: t => t.drop fp.length
            | _ => r
  if ip.isEmpty && fp.isEmpty then none
  else
    let mant : ℚ := (natOfDec ip : ℚ) + (natOfDec fp : ℚ) / ((10 : ℚ) ^ fp.length)
    let e := jsFloatExp r2
    if 0 ≤ e then some (mant * (10 : ℚ) ^ e.toNat)
    else some (mant / (10 : ℚ) ^ (-e).toNat)

/-- JavaScript `parseFloat(s)`: skip leading whitespace, optional sign, then a
decimal significand with optional fractional part and exponent; `none` models
`NaN`.  (The `Infinity` literal is not modelled; no input in this codebase
produces it.) -/
def jsParseFloat (s : String) : Option ℚ :=
  let cs := s.toList.dropWhile isWsChar
  match cs with
  | '-' :: t => (jsParseFloatMag t).map (fun q => -q)
  | '+' :: t => jsParseFloatMag t
  | t => jsParseFloatMag t

/-- `parseFloat` applied to a possibly-undefined argument (`undefined`
stringifies to `"undefined"`, giving `NaN`). -/
def jsParseFloatU (a : Option String) : Option ℚ :=
  match a with
  | none => none
  | some s => jsParseFloat s

/-- `isPre pat s`: `pat` is a prefix of `s` (character lists). -/
def isPre : List Char → List Char → Bool
  | [], _ => true
  | _ :: _, [] => false
  | p :: ps, c :: cs => p = c && isPre ps cs

/-- Does `pat` occur as a contiguous sublist of `s`? -/
def hasSubAux (pat : List Char) : List Char → Bool
  | [] => isPre pat []
  | c :: cs => isPre pat (c :: cs) || hasSubAux pat cs

/-- JavaScript `s.includes(pat)`. -/
def jsIncludes (s pat : String) : Bool :=
  hasSubAux pat.toList s.toList

/-- Split `s` at the first occurrence of `pat`: returns the characters before
the occurrence and the characters after it (the occurrence itself consumed). -/
def splitAtSub (pat : List Char) : List Char → Option (List Char × List Char)
  | [] => if isPre pat [] then some ([], []) else none
  | c :: cs =>
    if isPre pat (c :: cs) then some ([], (c :: cs).drop pat.length)
    else
      match splitAtSub pat cs with
      | some (b, a) => some (c :: b, a)
      | none => none

/-- Split a character list on a single-character separator, keeping empty
pieces, exactly as JavaScript `s.split(sep)` does for a one-character
separator (so a trailing separator yields a trailing empty piece and the
empty string yields one empty piece). -/
def splitSepAux (sep : Char) : List Char → List Char → List (List Char)
  | [], acc => [acc.reverse]
  | c :: cs, acc =>
    if c = sep then acc.reverse :: splitSepAux sep cs []
    else splitSepAux sep cs (c :: acc)

/-- JavaScript `s.split(sep)` for a one-character separator. -/
def jsSplitChar (s : String) (sep : Char) : List String :=
  (splitSepAux sep s.toList []).map String.mk

/-- JavaScript `s.trim()` (ASCII whitespace). -/
def jsTrim (s : String) : String :=
  String.mk (((s.toList.dropWhile isWsChar).reverse.dropWhile isWsChar).reverse)

/-- JavaScript `<` on possibly-`NaN` numbers: any comparison involving `NaN`
(or `undefined`, which coerces to `NaN`) is false. -/
def jsNumLt (a b : Option Int) : Bool :=
  match a, b with
  | some x, some y => decide (x < y)
  | _, _ => false

/-- JavaScript `>` on possibly-`NaN` numbers. -/
def jsNumGt (a b : Option Int) : Bool :=
  match a, b with
  | some x, some y => decide (y < x)
  | _, _ => false

/-! ## Command channel: line handling and dispatch
(`handleCommandData`, `processCommandResponse`, `vantageInfusion.ts` 78-134) -/

/-- Events emitted by the command channel dispatcher.  Argument slots that the
source reads with `args[i]` carry `Option` values because a missing argument
is JavaScript `undefined`; numeric payloads are parse results where `none`
models `NaN`. -/
inductive Ev where
  | loadStatus (vid : Option String) (level : Option Int)
  | blindStatus (vid : Option String) (position : Option Int)
  | thermoDidChange (v : Option String)
  | indoorTemp (vid : Option String) (temp : Option ℚ)
  | thermoMode (vid : Option String) (mode : Nat) (setpoint : Option ℚ)
deriving DecidableEq

/-- Thermostat mode decoding of `processCommandResponse` lines 120-124:
substring match on the mode token, `OFF` → 0, `HEAT` → 1, `COOL` → 2,
anything else → 3 (Auto). -/
def decodeThermoMode (m : String) : Nat :=
  if jsIncludes m "OFF" then 0
  else if jsIncludes m "HEAT" then 1
  else if jsIncludes m "COOL" then 2
  else 3

/-- `processCommandResponse` (`vantageInfusion.ts` 91-134).  Returns the
emitted events together with a flag that is `true` when the body throws: the
only throw site is `args[1].includes(...)` in the `S:THERMOP` /
`R:GETTHERMOP` / `R:THERMTEMP` case when `args[1]` is `undefined`
(`TypeError` on property access of `undefined`). -/
def processCommandResponse (parts : List String) : List Ev × Bool :=
  match parts with
  | [] => ([], false)
  | command :: args =>
    if command = "S:BLIND" ∨ command = "R:GETBLIND" then
      ([Ev.blindStatus args.head? (jsParseIntU (args.get? 1))], false)
    else if command = "S:LOAD" ∨ command = "R:GETLOAD" then
      ([Ev.loadStatus args.head? (jsParseIntU (args.get? 1))], false)
    else if command = "S:TEMP" then
      ([Ev.thermoDidChange (args.get? 1)], false)
    else if command = "R:INVOKE" then
      (match args.get? 2 with
       | some a2 =>
         if jsIncludes a2 "Thermostat.GetIndoorTemperature" then
           [Ev.indoorTemp args.head? (jsParseFloatU (args.get? 1))]
         else []
       | none => [], false)
    else if command = "S:THERMOP" ∨ command = "R:GETTHERMOP" ∨ command = "R:THERMTEMP" then
      match args.get? 1 with
      | none => ([], true)
      | some m =>
        ([Ev.thermoMode args.head? (decodeThermoMode m)
           (if command = "R:THERMTEMP" then jsParseFloatU (args.get? 2) else some (-1))], false)
    else ([], false)

/-- The `for (const line of lines)` loop of `handleCommandData`: events are
emitted in order; a throw inside `processCommandResponse` propagates and the
remaining lines are never processed. -/
def processLines : List (List String) → List Ev × Bool
  | [] => ([], false)
  | p :: rest =>
    if p = [] then processLines rest
    else
      match processCommandResponse p with
      | (evs, true) => (evs, true)
      | (evs, false) =>
        let r := processLines rest
        (evs ++ r.1, r.2)

/-- `handleCommandData` (`vantageInfusion.ts` 78-89): one socket `data`
callback.  The chunk is split on `\n` and every piece — including a trailing
piece that is not newline-terminated — is tokenised on spaces and dispatched.
There is no buffering of a trailing incomplete line across chunks. -/
def handleCommandData (chunk : String) : List Ev × Bool :=
  processLines ((jsSplitChar chunk '\n').map (fun l => jsSplitChar l ' '))

/-- Feeding several successive `data` chunks to the command channel.  A throw
in one callback crashes the process, so later chunks are not processed. -/
def handleChunks : List String → List Ev × Bool
  | [] => ([], false)
  | c :: cs =>
    match handleCommandData c with
    | (evs, true) => (evs, true)
    | (evs, false) =>
      let r := handleChunks cs
      (evs ++ r.1, r.2)

/-! ## Outbound thermostat command (`setThermostatTemperature`, lines 706-724) -/

/-- The string written by `sprintf('THERMTEMP %s HEAT %s\n', ...)` and its
`COOL` sibling.  Temperatures are embedded as integers; formatting and the
order comparisons agree with the JavaScript number semantics on them. -/
def thermtempWrite (vid tag : String) (value : Int) : String :=
  "THERMTEMP " ++ vid ++ " " ++ tag ++ " " ++ toString value ++ "\n"

/-- `setThermostatTemperature` (`vantageInfusion.ts` 706-724): the list of
strings written to the command socket.  Mode 1 = Heat, 2 = Cool, 3 = Auto
(the encoding used by `setThermostatMode` and the thermostat accessory). -/
def setThermostatTemperature (vid : String) (value : Int) (mode : Nat)
    (heating cooling : Int) : List String :=
  if mode = 1 then [thermtempWrite vid "HEAT" value]
  else if mode = 2 then [thermtempWrite vid "COOL" value]
  else if mode = 3 then
    if cooling < value then [thermtempWrite vid "COOL" value]
    else if value < heating then [thermtempWrite vid "HEAT" value]
    else []
  else []

/-! ## Parsed-XML value model

`fast-xml-parser` returns a plain JavaScript object tree; `JVal` models the
values the backup-processing code reads from it: strings, numbers (attribute
and tag values are numerically coerced by the parser configuration), booleans,
objects, arrays, `null` and `undefined` (absent property). -/

inductive JVal where
  | missing
  | jnull
  | str (s : String)
  | num (q : ℚ)
  | jbool (b : Bool)
  | obj (fields : List (String × JVal))
  | arr (elems : List JVal)

/-- Property lookup on an object field list (first binding wins). -/
def jGetAux : List (String × JVal) → String → JVal
  | [], _ => .missing
  | (k, v) :: t, key => if k = key then v else jGetAux t key

/-- JavaScript property access `v[key]`: `undefined` on non-objects. -/
def jGet : JVal → String → JVal
  | .obj fs, k => jGetAux fs k
  | _, _ => .missing

/-- JavaScript truthiness: `undefined`, `null`, `false`, `""` and `0` are
falsy; objects and arrays are always truthy. -/
def jTruthy : JVal → Bool
  | .missing => false
  | .jnull => false
  | .str s => s ≠ ""
  | .num q => q ≠ 0
  | .jbool b => b
  | .obj _ => true
  | .arr _ => true

/-- Strict equality `v === s` against a string literal. -/
def jStrEq (v : JVal) (s : String) : Bool :=
  match v with
  | .str t => t = s
  | _ => false

/-- Rendering of a number by JavaScript `toString` (integral case; the backup
identifiers coerced to numbers by the parser are integers). -/
def jNumToStr (q : ℚ) : String :=
  if q.den = 1 then toString q.num else toString q

/-- JavaScript string coercion (`.toString()`, template literals, object
index coercion). -/
def jToStr : JVal → String
  | .missing => "undefined"
  | .jnull => "null"
  | .str s => s
  | .num q => jNumToStr q
  | .jbool b => if b then "true" else "false"
  | .obj _ => "[object Object]"
  | .arr _ => ""

/-! ## Device and area records, configuration filters -/

/-- The `VantageDevice` record produced by discovery. -/
structure VDevice where
  VID : String
  Name : String
  ObjectType : String
  LoadType : String
  DeviceCategory : String
  Area : String
deriving DecidableEq

/-- The `areas` accumulator: insertion-ordered map from area VID to area
display name (`VantageArea.Name`). -/
abbrev AreaMap := List (String × String)

/-- First-match lookup `areas[vid]`. -/
def lookupA : AreaMap → String → Option String
  | [], _ => none
  | (k0, v0) :: t, k => if k0 = k then some v0 else lookupA t k

/-- Assignment `areas[vid] = {...}` (overwrite in place, else append). -/
def setAssoc : AreaMap → String → String → AreaMap
  | [], k, v => [(k, v)]
  | (k0, v0) :: t, k, v =>
    if k0 = k then (k0, v) :: t else (k0, v0) :: setAssoc t k v

/-- `areas[areaId]?.Name || 'Main Area'` — the area display name used for a
device in both extraction tiers (`vantageInfusion.ts` 484 and 598). -/
def resolveAreaName (areas : AreaMap) (k : String) : String :=
  match lookupA areas k with
  | some n => if n = "" then "Main Area" else n
  | none => "Main Area"

/-- The omit list (`vantageInfusion.ts` 418 and 518), built from the
configured comma-separated string: empty/absent config gives the empty list,
otherwise split on commas and trim each entry. -/
def omitEntries (omitS : String) : List String :=
  if omitS = "" then [] else (jsSplitChar omitS ',').map jsTrim

/-- The range list (`vantageInfusion.ts` 419 and 519):
`config.range ? config.range.split(',').map(id => parseInt(id.trim())) : [0, 999999999]`.
Entries are `parseInt` results, so a malformed entry is `NaN`. -/
def rangeLimits (range : String) : List (Option Int) :=
  if range = "" then [some 0, some 999999999]
  else (jsSplitChar range ',').map (fun x => jsParseInt (jsTrim x))

/-- `rangeList[i]`: out-of-bounds indexing yields `undefined`, which behaves
like `NaN` in the comparisons, so both collapse to `none`. -/
def rangeItem (range : String) (i : Nat) : Option Int :=
  ((rangeLimits range).get? i).getD none

/-- The skip guard shared verbatim by both extraction tiers
(`vantageInfusion.ts` 454-456 and 557-559):
`omitList.includes(vid) || (!isNaN(numVid) && (numVid < rangeList[0] || numVid > rangeList[1]))`. -/
def vidExcluded (omitS range vid : String) : Bool :=
  (omitEntries omitS).contains vid ||
  (match jsParseInt vid with
   | some n => jsNumLt (some n) (rangeItem range 0) || jsNumGt (some n) (rangeItem range 1)
   | none => false)

/-! ## Raw-text scanners (the regex patterns of the direct extraction tier)

Each definition implements the exact backtracking semantics of the JavaScript
regex it models (greedy character classes, lazy gaps, leftmost match,
`g`-flag continuation from the end of the previous match).  All take a fuel
argument instantiated with more than the length of the scanned text. -/

/-- Matching of `<Name>([^<]+)<\/Name>` preceded by a lazy gap: try each
occurrence of `<Name>` in order; the captured run is the maximal run of
non-`<` characters and must be non-empty and immediately followed by
`</Name>`.  Returns the capture and the rest of the text after `</Name>`. -/
def findNamePair : List Char → Nat → Option (List Char × List Char)
  | _, 0 => none
  | s, fuel + 1 =>
    match splitAtSub "<Name>".toList s with
    | none => none
    | some (_, a) =>
      let nm := a.takeWhile (fun c => c ≠ '<')
      if !nm.isEmpty && isPre "</Name>".toList (a.drop nm.length) then
        some (nm, a.drop (nm.length + 7))
      else findNamePair a fuel

/-- Matching of `key"..."`-style attribute extraction such as
`/VID="([^"]+)"/`: first occurrence of `key` followed by a non-empty maximal
run of non-quote characters and a closing quote. -/
def findQuoted (key : List Char) : List Char → Nat → Option (List Char)
  | _, 0 => none
  | s, fuel + 1 =>
    match splitAtSub key s with
    | none => none
    | some (_, a) =>
      let v := a.takeWhile (fun c => c ≠ '"')
      if !v.isEmpty && isPre ['"'] (a.drop v.length) then some v
      else findQuoted key a fuel

/-- Matching of `/<Tag>([^<]+)<\/Tag>/`-style element extraction (used for
`<VID>`, `<Number>`, `<Area>`, `<LoadType>`, `<DeviceCategory>`). -/
def findElemVal (openT closeT : List Char) : List Char → Nat → Option (List Char)
  | _, 0 => none
  | s, fuel + 1 =>
    match splitAtSub openT s with
    | none => none
    | some (_, a) =>
      let v := a.takeWhile (fun c => c ≠ '<')
      if !v.isEmpty && isPre closeT (a.drop v.length) then some v
      else findElemVal openT closeT a fuel

/-- Completion of the device pattern
`<Tag([^>]*)>.*?<Name>([^<]+)<\/Name>.*?<\/Tag>` after the literal `<Tag`
has matched: greedy attributes up to `>`, lazy gap to a valid `<Name>`
element, lazy gap to the closing tag.  Returns (attributes, name, rest). -/
def devComplete (tag : List Char) (afterOpen : List Char) :
    Option (List Char × List Char × List Char) :=
  let attrs := afterOpen.takeWhile (fun c => c ≠ '>')
  match afterOpen.drop attrs.length with
  | '>' :: r2 =>
    match findNamePair r2 (r2.length + 1) with
    | none => none
    | some (nm, r3) =>
      match splitAtSub ('<' :: '/' :: tag ++ ['>']) r3 with
      | some (_, rest) => some (attrs, nm, rest)
      | none => none
  | _ => none

/-- One `deviceRegex.exec` step: leftmost candidate is the first occurrence
of `<Tag`; a failed candidate advances the search.  Returns (whole match,
attributes, name, rest after the match). -/
def devMatch (tag : List Char) : List Char → Nat →
    Option (List Char × List Char × List Char × List Char)
  | _, 0 => none
  | s, fuel + 1 =>
    match splitAtSub ('<' :: tag) s with
    | none => none
    | some (pre, afterOpen) =>
      match devComplete tag afterOpen with
      | some (attrs, nm, rest) =>
        some (('<' :: tag) ++ afterOpen.take (afterOpen.length - rest.length),
              attrs, nm, rest)
      | none => devMatch tag (s.drop (pre.length + 1)) fuel

/-- VID extraction order of `extractDevicesDirectly` (lines 531-550):
attribute `VID="..."` in the attribute span, else child `<VID>`, else child
`<Number>` in the whole match. -/
def vidOfMatch (attrs whole : List Char) : Option (List Char) :=
  match findQuoted "VID=\"".toList attrs (attrs.length + 1) with
  | some v => some v
  | none =>
    match findElemVal "<VID>".toList "</VID>".toList whole (whole.length + 1) with
    | some v => some v
    | none => findElemVal "<Number>".toList "</Number>".toList whole (whole.length + 1)

/-- Body of the `while ((deviceMatch = deviceRegex.exec(...)))` loop
(lines 527-604): build the device from one regex match, or skip it. -/
def matchToDevice (omitS range : String) (areas : AreaMap) (tagS : String)
    (whole attrs nm : List Char) : List VDevice :=
  match vidOfMatch attrs whole with
  | none => []
  | some v =>
    if nm.isEmpty then []
    else if vidExcluded omitS range (String.mk v) then []
    else
      [{ VID := String.mk v
         Name := String.mk nm
         ObjectType := tagS
         LoadType := String.mk
           ((findElemVal "<LoadType>".toList "</LoadType>".toList whole (whole.length + 1)).getD [])
         DeviceCategory := String.mk
           ((findElemVal "<DeviceCategory>".toList "</DeviceCategory>".toList whole (whole.length + 1)).getD [])
         Area := resolveAreaName areas
           (String.mk ((findElemVal "<Area>".toList "</Area>".toList whole (whole.length + 1)).getD [])) }]

/-- The `exec` loop for one device type tag: each match is processed and the
scan resumes after the end of the match (`lastIndex` semantics). -/
def scanDevices (omitS range : String) (areas : AreaMap) (tagS : String) :
    List Char → Nat → List VDevice
  | _, 0 => []
  | s, fuel + 1 =>
    match devMatch tagS.toList s (s.length + 1) with
    | none => []
    | some (whole, attrs, nm, rest) =>
      matchToDevice omitS range areas tagS whole attrs nm ++
        scanDevices omitS range areas tagS rest fuel

/-- The five supported device type tags (`validTypes`). -/
def validTypes : List String := ["Load", "Thermostat", "Blind", "RelayBlind", "QubeBlind"]

/-! ## Direct area extraction (`extractAreasDirectly`, lines 786-818) -/

/-- Completion of the area pattern
`<Object>\s*<Area\s+VID="([^"]+)"[^>]*>.*?<Name>([^<]+)<\/Name>.*?<\/Area>\s*<\/Object>`
after the literal `<Object>` has matched. -/
def areaComplete (after : List Char) : Option (List Char × List Char × List Char) :=
  let r0 := after.dropWhile isWsChar
  if isPre "<Area".toList r0 then
    let r1 := r0.drop 5
    let ws := r1.takeWhile isWsChar
    if ws.isEmpty then none
    else
      let r2 := r1.drop ws.length
      if isPre "VID=\"".toList r2 then
        let r3 := r2.drop 5
        let v := r3.takeWhile (fun c => c ≠ '"')
        if v.isEmpty then none
        else if isPre ['"'] (r3.drop v.length) then
          let r4 := r3.drop (v.length + 1)
          let a2 := r4.takeWhile (fun c => c ≠ '>')
          match r4.drop a2.length with
          | '>' :: r5 =>
            match findNamePair r5 (r5.length + 1) with
            | none => none
            | some (nm, r6) =>
              match findAreaObjClose r6 (r6.length + 1) with
              | none => none
              | some rest => some (v, nm, rest)
          | _ => none
        else none
      else none
  else none
where
  /-- Lazy gap to `</Area>` followed by optional whitespace and `</Object>`:
  try each `</Area>` occurrence in order. -/
  findAreaObjClose : List Char → Nat → Option (List Char)
  | _, 0 => none
  | s, fuel + 1 =>
    match splitAtSub "</Area>".toList s with
    | none => none
    | some (_, a) =>
      let a2 := a.dropWhile isWsChar
      if isPre "</Object>".toList a2 then some (a2.drop 9)
      else findAreaObjClose a fuel

/-- The `areaRegex.exec` loop: (vid, name) captures in match order. -/
def scanAreas : List Char → Nat → List (List Char × List Char)
  | _, 0 => []
  | s, fuel + 1 =>
    match splitAtSub "<Object>".toList s with
    | none => []
    | some (pre, after) =>
      match areaComplete after with
      | some (v, nm, rest) => (v, nm) :: scanAreas rest fuel
      | none => scanAreas (s.drop (pre.length + 1)) fuel

/-- `extractAreasDirectly` (lines 786-818): add each matched area whose VID is
not already present, then synthesise the default area if the map is still
empty. -/
def extractAreasDirectly (areas0 : AreaMap) (s : String) : AreaMap :=
  let pairs := scanAreas s.toList (s.length + 1)
  let areas1 := pairs.foldl
    (fun acc p =>
      let v := String.mk p.1
      if v ≠ "" && (lookupA acc v).isNone then acc ++ [(v, String.mk p.2)] else acc)
    areas0
  if areas1.isEmpty then [("default_area", "Main Area")] else areas1

/-! ## Direct device extraction (`extractDevicesDirectly`, lines 507-612) -/

/-- The `for (const type of validTypes)` loop. -/
def extractDevicesDirectlyAux (omitS range : String) (areas : AreaMap) (s : String) :
    List String → List VDevice
  | [] => []
  | t :: ts =>
    scanDevices omitS range areas t s.toList (s.length + 1) ++
      extractDevicesDirectlyAux omitS range areas s ts

/-- `extractDevicesDirectly` (lines 507-612): extract areas first when none
are known yet, then scan for each supported device type tag in order. -/
def extractDevicesDirectly (omitS range : String) (areas0 : AreaMap) (s : String) :
    List VDevice :=
  extractDevicesDirectlyAux omitS range
    (if areas0.isEmpty then extractAreasDirectly [] s else areas0) s validTypes

/-! ## Structured tier: area collection passes (`processBackupFile`, lines 341-413) -/

/-- `areaObj._VID || areaObj.VID || ''` rendered as the object-key string. -/
def areaVidOf (a : JVal) : String :=
  if jTruthy (jGet a "_VID") then jToStr (jGet a "_VID")
  else if jTruthy (jGet a "VID") then jToStr (jGet a "VID")
  else ""

/-- `areaObj.Name || areaObj.DName || 'Unknown'`. -/
def areaNameOf (a : JVal) : String :=
  if jTruthy (jGet a "Name") then jToStr (jGet a "Name")
  else if jTruthy (jGet a "DName") then jToStr (jGet a "DName")
  else "Unknown"

/-- First sub-pass (lines 343-358): objects whose `Area` child carries
`ObjectType === 'Area'`. -/
def areaPass1 : AreaMap → List JVal → AreaMap
  | areas, [] => areas
  | areas, o :: os =>
    let a := jGet o "Area"
    if jTruthy a && jStrEq (jGet a "ObjectType") "Area" then
      if areaVidOf a = "" then areaPass1 areas os
      else areaPass1 (setAssoc areas (areaVidOf a) (areaNameOf a)) os
    else areaPass1 areas os

/-- Second sub-pass (lines 361-374): standalone `Area` children without an
`ObjectType`, added only when the VID is not yet known. -/
def areaPass2 : AreaMap → List JVal → AreaMap
  | areas, [] => areas
  | areas, o :: os =>
    let a := jGet o "Area"
    if jTruthy a && !(jTruthy (jGet a "ObjectType")) && jTruthy (jGet a "_VID") then
      let vid := jToStr (jGet a "_VID")
      if vid ≠ "" && (lookupA areas vid).isNone then
        areaPass2 (areas ++ [(vid, areaNameOf a)]) os
      else areaPass2 areas os
    else areaPass2 areas os

/-- Alternative pass (lines 381-397), only reached when the map is empty:
top-level `ObjectType === 'Area'` objects or `Area` children typed as areas. -/
def areaPass3 : AreaMap → List JVal → AreaMap
  | areas, [] => areas
  | areas, o :: os =>
    if jStrEq (jGet o "ObjectType") "Area" ||
       (jTruthy (jGet o "Area") && jStrEq (jGet (jGet o "Area") "ObjectType") "Area") then
      let target := if jStrEq (jGet o "ObjectType") "Area" then o else jGet o "Area"
      if areaVidOf target = "" then areaPass3 areas os
      else areaPass3 (setAssoc areas (areaVidOf target) (areaNameOf target)) os
    else areaPass3 areas os

/-- All structured-tier area passes in order, with the default-area synthesis
of lines 406-413. -/
def areaPasses (areas : AreaMap) (objects : List JVal) : AreaMap :=
  let a1 := areaPass1 areas objects
  let a2 := areaPass2 a1 objects
  let a3 := if a2.isEmpty then areaPass3 a2 objects else a2
  if a3.isEmpty then a3 ++ [("default_area", "Main Area")] else a3

/-! ## Structured tier: device extraction (second pass, lines 415-495) -/

/-- The `for (const type of validTypes)` loop with `break` (lines 427-433):
first supported type tag present and truthy on the object. -/
def firstTypeAux (o : JVal) : List String → Option (String × JVal)
  | [] => none
  | t :: ts => if jTruthy (jGet o t) then some (t, jGet o t) else firstTypeAux o ts

/-- Device type detection for one parsed object. -/
def firstType (o : JVal) : Option (String × JVal) :=
  firstTypeAux o validTypes

/-- VID extraction (lines 440-447): `_VID` attribute first, then `VID`
element, each via `.toString()`; empty string when neither is truthy. -/
def vidOfData (dd : JVal) : String :=
  if jTruthy (jGet dd "_VID") then jToStr (jGet dd "_VID")
  else if jTruthy (jGet dd "VID") then jToStr (jGet dd "VID")
  else ""

/-- Area reference extraction (lines 459-475): a primitive `Area` value is
stringified; otherwise its `_VID` then `VID` children are used (the raw value
is later coerced to a string when used as an object index). -/
def areaKeyOf (dd : JVal) : String :=
  let a := jGet dd "Area"
  if jTruthy a then
    match a with
    | .str s => s
    | .num q => jNumToStr q
    | _ =>
      if jTruthy (jGet a "_VID") then jToStr (jGet a "_VID")
      else if jTruthy (jGet a "VID") then jToStr (jGet a "VID")
      else ""
  else ""

/-- `deviceData.Name || deviceData.DName || `Unknown ${deviceType}`` (line 480). -/
def nameOfData (dd : JVal) (ty : String) : String :=
  if jTruthy (jGet dd "Name") then jToStr (jGet dd "Name")
  else if jTruthy (jGet dd "DName") then jToStr (jGet dd "DName")
  else "Unknown " ++ ty

/-- `deviceData.LoadType || ''` and friends (lines 482-483). -/
def strField (dd : JVal) (key : String) : String :=
  if jTruthy (jGet dd key) then jToStr (jGet dd key) else ""

/-- Processing of one parsed object in the second pass (lines 421-495):
zero or one device, with the omit/range guard applied before the push. -/
def deviceOfObj (omitS range : String) (areas : AreaMap) (o : JVal) : List VDevice :=
  match firstType o with
  | none => []
  | some (ty, dd) =>
    if vidOfData dd = "" then []
    else if vidExcluded omitS range (vidOfData dd) then []
    else
      [{ VID := vidOfData dd
         Name := nameOfData dd ty
         ObjectType := ty
         LoadType := strField dd "LoadType"
         DeviceCategory := strField dd "DeviceCategory"
         Area := resolveAreaName areas (areaKeyOf dd) }]

/-- The whole second pass over the parsed object list, in order. -/
def structuredSecondPass (omitS range : String) (areas : AreaMap) :
    List JVal → List VDevice
  | [] => []
  | o :: os =>
    deviceOfObj omitS range areas o ++ structuredSecondPass omitS range areas os

/-! ## `processBackupFile` (lines 276-505) -/

/-- `fileContent.replace(/[\r\n]/g, '')` (line 279). -/
def stripCRLF (s : String) : String :=
  String.mk (s.toList.filter (fun c => c ≠ '\r' && c ≠ '\n'))

/-- The `<Objects>(.*?)<\/Objects>` match with the `<Project>` fallback
(lines 289-305): the section rebuilt as `<Objects>…</Objects>`, or `none`
when neither section exists (in which case the source logs an error and
returns). -/
def objectsXmlOf (s : String) : Option String :=
  match splitAtSub "<Objects>".toList s.toList with
  | some (_, a) =>
    (match splitAtSub "</Objects>".toList a with
     | some (inner, _) => some ("<Objects>" ++ String.mk inner ++ "</Objects>")
     | none => projSection s)
  | none => projSection s
where
  projSection (s : String) : Option String :=
    match splitAtSub "<Project>".toList s.toList with
    | some (_, a) =>
      (match splitAtSub "</Project>".toList a with
       | some (inner, _) => some ("<Objects>" ++ String.mk inner ++ "</Objects>")
       | none => none)
    | none => none

/-- `Array.isArray(x) ? x : [x]` (line 337). -/
def jObjList : JVal → List JVal
  | .arr l => l
  | v => [v]

/-- `processBackupFile` on already-newline-stripped content.  `parse` is the
oracle standing for the external `XMLParser.parse`, returning `Except.error`
when the library would throw; the `try`/`catch` of lines 319-327 is the
`Except.error` branch, and the checks of lines 329-335 are the truthiness
test.  Returns the final `areas` map and the devices pushed. -/
def processBackupStripped (parse : String → Except Unit JVal)
    (omitS range : String) (s : String) (areas0 : AreaMap) :
    AreaMap × List VDevice :=
  match objectsXmlOf s with
  | none => (extractAreasDirectly areas0 s, [])
  | some xml =>
    match parse xml with
    | Except.error _ =>
      (extractAreasDirectly areas0 s,
       extractDevicesDirectly omitS range (extractAreasDirectly areas0 s) s)
    | Except.ok result =>
      if !(jTruthy (jGet result "Objects")) ||
         !(jTruthy (jGet (jGet result "Objects") "Object")) then
        (extractAreasDirectly areas0 s,
         extractDevicesDirectly omitS range (extractAreasDirectly areas0 s) s)
      else
        let objects := jObjList (jGet (jGet result "Objects") "Object")
        let areas2 := areaPasses (extractAreasDirectly areas0 s) objects
        (areas2, structuredSecondPass omitS range areas2 objects)

/-- `processBackupFile` (lines 276-505): strip newlines, extract areas from
the raw text (line 285 — this runs before anything else, so the map is never
empty afterwards), then the structured tier with its fallthroughs.  The body
is total: the only throwing operation (the XML parse) is caught at lines
319-327, so the outer `catch` of lines 498-504 has no remaining throw site. -/
def processBackupFile (parse : String → Except Unit JVal)
    (omitS range : String) (fileContent : String) (areas0 : AreaMap) :
    AreaMap × List VDevice :=
  processBackupStripped parse omitS range (stripCRLF fileContent) areas0

structure ReconnState where
  /-- `close` listeners registered by `setupReconnection` so far. -/
  reconnListeners : Nat
  /-- 5-second reconnect timers started during the most recent close event
  (all pending simultaneously afterwards). -/
  timersAtLastClose : Nat
  /-- reconnect timers started since the channel was created. -/
  totalTimers : Nat
deriving DecidableEq

/-- State before any close event. -/
def reconnInit : ReconnState := ⟨0, 0, 0⟩

/-- One socket `close` event: every previously registered
`setupReconnection` listener fires (each starting one timer), and the
original handler calls `setupReconnection`, adding one more listener. -/
def closeEventStep (st : ReconnState) : ReconnState :=
  { reconnListeners := st.reconnListeners + 1
    timersAtLastClose := st.reconnListeners
    totalTimers := st.totalTimers + st.reconnListeners }

/-- The state after `n` successive close events. -/
def runCloses : Nat → ReconnState
  | 0 => reconnInit
  | n + 1 => closeEventStep (runCloses n)

/-! ## Discovery event model (`discover`, lines 142-274)

The handlers registered on the discovery socket, driven by the socket
life-cycle events.  Two facts of the Node socket semantics are part of the
model (the source itself relies on the first at line 139): an `error` event
is followed by a `close` event, and `destroy()` (called when the 10-second
ceiling fires) also leads to a `close` event. -/

inductive DiscEv where
  | timeoutFire
  | connect
  | sockError
  | close
deriving DecidableEq

structure DiscState where
  /-- the 10-second `connectionTimeout` is still pending. -/
  timeoutArmed : Bool
  /-- the device lists passed to successive `discoveryComplete` emissions. -/
  emissions : List (List VDevice)
deriving DecidableEq

/-- One life-cycle event, given the devices accumulated so far:
`timeoutFire` destroys the socket and emits an empty list (lines 152-158);
`connect` clears the timer (line 161); `error` clears the timer and emits an
empty list (lines 252-266); `close` clears the timer and emits the
accumulated devices (lines 268-272). -/
def discStep (devices : List VDevice) (st : DiscState) : DiscEv → DiscState
  | .timeoutFire =>
    if st.timeoutArmed then { timeoutArmed := false, emissions := st.emissions ++ [[]] }
    else st
  | .connect => { st with timeoutArmed := false }
  | .sockError => { timeoutArmed := false, emissions := st.emissions ++ [[]] }
  | .close => { timeoutArmed := false, emissions := st.emissions ++ [devices] }

/-- Run one discovery attempt through a sequence of socket events. -/
def runDiscover (devices : List VDevice) (evs : List DiscEv) : DiscState :=
  evs.foldl (discStep devices) { timeoutArmed := true, emissions := [] }

/-! ## Concrete instances used by the claim theorems -/

/-- Backup text whose Objects section is malformed XML (`<broken<`), on which
the structured parser throws but the device regex still matches the Load. -/
def malformedBackup : String :=
  "<Objects><Load VID=\"5\"><Name>Lamp</Name></Load><broken</Objects>"

/-- Backup text containing a well-shaped Load but neither an `<Objects>` nor
a `<Project>` section. -/
def noSectionBackup : String :=
  "<Load VID=\"5\"><Name>Lamp</Name></Load>"

/-- A parsed object carrying one Load (VID 7) used to witness the filter
theorems. -/
def witnessLoadObj : JVal :=
  JVal.obj [("Load", JVal.obj [("_VID", JVal.str "7"), ("Name", JVal.str "Lamp")])]

theorem matchToDevice_not_excluded {omitS range : String} {areas : AreaMap}
    {tagS : String} {whole attrs nm : List Char} {d : VDevice}
    (hd : d ∈ matchToDevice omitS range areas tagS whole attrs nm) :
    vidExcluded omitS range d.VID = false := by
  unfold matchToDevice at hd
  split at hd
  · simp at hd
  · rename_i v _
    split at hd
    · simp at hd
    · split at hd
      · simp at hd
      · rename_i hx
        simp only [List.mem_singleton] at hd
        subst hd
        show vidExcluded omitS range (String.mk v) = false
        revert hx
        cases vidExcluded omitS range (String.mk v) <;> simp

theorem scanDevices_not_excluded {omitS range : String} {areas : AreaMap} {tagS : String} :
    ∀ (fuel : Nat) (s : List Char) (d : VDevice),
      d ∈ scanDevices omitS range areas tagS s fuel →
      vidExcluded omitS range d.VID = false := by
  intro fuel
  induction fuel with
  | zero => intro s d hd; simp [scanDevices] at hd
  | succ n ih =>
    intro s d hd
    simp only [scanDevices] at hd
    split at hd
    · simp at hd
    · rename_i whole attrs nm rest _
      rcases List.mem_append.mp hd with h | h
      · exact matchToDevice_not_excluded h
      · exact ih rest d h

theorem directAux_not_excluded {omitS range : String} {areas : AreaMap} {s : String} :
    ∀ (ts : List String) (d : VDevice),
      d ∈ extractDevicesDirectlyAux omitS range areas s ts →
      vidExcluded omitS range d.VID = false := by
  intro ts
  induction ts with
  | nil => intro d hd; simp [extractDevicesDirectlyAux] at hd
  | cons t ts ih =>
    intro d hd
    simp only [extractDevicesDirectlyAux] at hd
    rcases List.mem_append.mp hd with h | h
    · exact scanDevices_not_excluded _ _ _ h
    · exact ih d h

theorem deviceOfObj_not_excluded {omitS range : String} {areas : AreaMap} {o : JVal}
    {d : VDevice} (hd : d ∈ deviceOfObj omitS range areas o) :
    vidExcluded omitS range d.VID = false := by
  unfold deviceOfObj at hd
  split at hd
  · simp at hd
  · rename_i ty dd _
    split at hd
    · simp at hd
    · split at hd
      · simp at hd
      · rename_i hx
        simp only [List.mem_singleton] at hd
        subst hd
        show vidExcluded omitS range (vidOfData dd) = false
        revert hx
        cases vidExcluded omitS range (vidOfData dd) <;> simp

theorem structuredSecondPass_not_excluded {omitS range : String} {areas : AreaMap} :
    ∀ (objects : List JVal) (d : VDevice),
      d ∈ structuredSecondPass omitS range areas objects →
      vidExcluded omitS range d.VID = false := by
  intro objects
  induction objects with
  | nil => intro d hd; simp [structuredSecondPass] at hd
  | cons o os ih =>
    intro d hd
    simp only [structuredSecondPass] at hd
    rcases List.mem_append.mp hd with h | h
    · exact deviceOfObj_not_excluded h
    · exact ih d h

/-- Claim C1 (code evaluated at the failing input): the claim states that
feeding a valid newline-terminated stream in chunks yields the same (verb,
args) list as feeding it unsplit, because a trailing incomplete line is
buffered.  `handleCommandData` keeps no buffer: splitting the stream
`S:LOAD 1 50\n` after byte 8 makes the channel dispatch the fragment
`S:LOAD 1` as a complete line (emitting a load event with a NaN level) while
the unsplit stream emits the level 50, so the two runs disagree. -/
theorem lineCodec_no_chunk_buffering :
    handleChunks ["S:LOAD 1 50\n"] = ([Ev.loadStatus (some "1") (some 50)], false)
    ∧ handleChunks ["S:LOAD 1", " 50\n"] = ([Ev.loadStatus (some "1") none], false)
    ∧ handleChunks ["S:LOAD 1", " 50\n"] ≠ handleChunks ["S:LOAD 1 50\n"] := by
  refine ⟨by decide, by decide, by decide⟩

/-- Claim C2 (code evaluated at the failing input): the claim states that
dispatch never throws and that a thermostat-mode verb with no mode token is
a no-op with later lines still processed.  On the chunk
`S:LOAD 20 50\nS:THERMOP 7\nS:LOAD 21 60\n` the second line reaches
`args[1].includes(...)` with `args[1]` undefined and throws, so the third
line is never processed (error flag `true`, only the first event emitted). -/
theorem dispatcher_throws_on_missing_mode_token :
    handleCommandData "S:LOAD 20 50\nS:THERMOP 7\nS:LOAD 21 60\n" =
      ([Ev.loadStatus (some "20") (some 50)], true) := by decide

/-- Claim C3 (code evaluated at the failing input): the claim states that
every close, including the first, schedules exactly one reconnect attempt
and at most one timer is pending.  The close handler only calls
`setupReconnection`, which registers another close listener instead of
scheduling: after the first close zero timers exist, and the third close
starts two 5-second timers simultaneously (three in total). -/
theorem reconnect_timer_multiplication :
    (runCloses 1).timersAtLastClose = 0
    ∧ (runCloses 1).totalTimers = 0
    ∧ (runCloses 3).timersAtLastClose = 2
    ∧ (runCloses 3).totalTimers = 3 := by decide

/-- Claim C4 (code evaluated at the failing input): the claim states that
every discovery run emits exactly one discovery-complete event.  A socket
error is followed by a close event (the source relies on this at
`vantageInfusion.ts` 139), and the timeout path calls `destroy()`, which
also leads to close; in both scenarios the error/timeout handler emits once
and the close handler emits again — two events, each with an empty list.
Only the successful path (connect, then close) emits exactly once. -/
theorem discovery_double_emission :
    (runDiscover [] [DiscEv.sockError, DiscEv.close]).emissions = [[], []]
    ∧ (runDiscover [] [DiscEv.timeoutFire, DiscEv.close]).emissions = [[], []]
    ∧ ∀ (devices : List VDevice),
        (runDiscover devices [DiscEv.connect, DiscEv.close]).emissions = [devices] := by
  refine ⟨by decide, by decide, fun devices => rfl⟩

/-- Claim C6: `setThermostatTemperature` writes exactly the heat-setpoint
command in mode 1, exactly the cool-setpoint command in mode 2, and in mode
3 (Auto) writes the cool command only above the cooling threshold, the heat
command only below the heating threshold, and nothing in the dead band; in
particular value 72 with thresholds 65/75 writes nothing and value 80 writes
`THERMTEMP 7 COOL 80`. -/
theorem setThermostatTemperature_dead_band :
    ∀ (vid : String) (value heating cooling : Int),
      setThermostatTemperature vid value 1 heating cooling = [thermtempWrite vid "HEAT" value]
      ∧ setThermostatTemperature vid value 2 heating cooling = [thermtempWrite vid "COOL" value]
      ∧ setThermostatTemperature vid value 3 heating cooling =
          (if cooling < value then [thermtempWrite vid "COOL" value]
           else if value < heating then [thermtempWrite vid "HEAT" value]
           else [])
      ∧ setThermostatTemperature "7" 72 3 65 75 = []
      ∧ setThermostatTemperature "7" 80 3 65 75 = ["THERMTEMP 7 COOL 80\n"] := by
  intro vid value heating cooling
  refine ⟨rfl, rfl, rfl, by decide, by decide⟩

/-- Claim C7: a line whose verb is `S:THERMOP`, `R:GETTHERMOP` or
`R:THERMTEMP` and which carries a mode token raises exactly one
thermostat-mode event; the mode is decoded by substring match (OFF, then
HEAT, then COOL, else Auto) and the setpoint slot is `parseFloat(args[2])`
exactly for `R:THERMTEMP` and the sentinel -1 otherwise. -/
theorem thermo_mode_event_decoding :
    ∀ (command vid m : String) (rest : List String),
      command = "S:THERMOP" ∨ command = "R:GETTHERMOP" ∨ command = "R:THERMTEMP" →
      processCommandResponse (command :: vid :: m :: rest) =
        ([Ev.thermoMode (some vid) (decodeThermoMode m)
           (if command = "R:THERMTEMP" then jsParseFloatU rest.head? else some (-1))], false) := by
  intro command vid m rest h
  rcases h with h | h | h <;> subst h <;> cases rest <;> rfl

/-- Witness for claim C7 at the specification examples: `R:THERMTEMP 7 COOL
68.5` yields mode Cool with setpoint 68.5, and `S:THERMOP 7 HEAT` yields
mode Heat with the no-setpoint sentinel. -/
theorem thermo_mode_event_decoding_witness :
    processCommandResponse ["R:THERMTEMP", "7", "COOL", "68.5"] =
      ([Ev.thermoMode (some "7") 2 (some (137 / 2 : ℚ))], false)
    ∧ processCommandResponse ["S:THERMOP", "7", "HEAT"] =
      ([Ev.thermoMode (some "7") 1 (some (-1))], false) := by
  have e1 : natOfDec ['6', '8'] = 68 := by decide
  have e2 : natOfDec ['5'] = 5 := by decide
  have hfl : jsParseFloat "68.5" = some (137 / 2 : ℚ) := by
    have h2 : jsParseFloat "68.5" =
        some (((natOfDec ['6', '8'] : ℚ) + (natOfDec ['5'] : ℚ) / 10 ^ 1) *
          10 ^ (0 : Int).toNat) := rfl
    rw [h2, e1, e2]
    norm_num
  have hmC : decodeThermoMode "COOL" = 2 := by decide
  have hmH : decodeThermoMode "HEAT" = 1 := by decide
  constructor
  · rw [thermo_mode_event_decoding "R:THERMTEMP" "7" "COOL" ["68.5"] (Or.inr (Or.inr rfl))]
    show ([Ev.thermoMode (some "7") (decodeThermoMode "COOL") (jsParseFloat "68.5")], false) = _
    rw [hfl, hmC]
  · rw [thermo_mode_event_decoding "S:THERMOP" "7" "HEAT" [] (Or.inl rfl)]
    show ([Ev.thermoMode (some "7") (decodeThermoMode "HEAT") (some (-1))], false) = _
    rw [hmH]

/-- Claim C8: no device whose VID is excluded by the configured omit list or
lies outside the configured range ever appears in the output of either
extraction tier — every produced device satisfies the negation of the shared
skip guard, which both tiers apply during extraction. -/
theorem omit_range_filters_exclude :
    ∀ (omitS range : String) (areas : AreaMap) (objects : List JVal) (s : String)
      (d : VDevice),
      (d ∈ structuredSecondPass omitS range areas objects ∨
       d ∈ extractDevicesDirectly omitS range areas s) →
      vidExcluded omitS range d.VID = false := by
  intro omitS range areas objects s d h
  rcases h with h | h
  · exact structuredSecondPass_not_excluded objects d h
  · unfold extractDevicesDirectly at h
    exact directAux_not_excluded validTypes d h

/-- Witness for claim C8 at a concrete input: a Load with VID 7, surviving
the filters with omit list `5`, is not excluded. -/
theorem omit_range_filters_exclude_witness :
    vidExcluded "5" "" (⟨"7", "Lamp", "Load", "", "", "Main Area"⟩ : VDevice).VID = false :=
  omit_range_filters_exclude "5" "" [] [witnessLoadObj] ""
    ⟨"7", "Lamp", "Load", "", "", "Main Area"⟩ (Or.inl (by decide))

/-- Claim C9 (counterexample): the claim states that whenever the structured
tier throws or finds no object collection the direct regex tier is invoked
and still recovers matching devices.  On a backup with a well-shaped Load
but no `<Objects>` or `<Project>` section, `processBackupFile` returns with
no devices and without invoking the direct tier, although the direct tier
run on the same text recovers the Load. -/
theorem missing_section_skips_direct_tier :
    (processBackupFile (fun _ => Except.error ()) "" "" noSectionBackup []).2 = []
    ∧ extractDevicesDirectly "" ""
        (extractAreasDirectly [] (stripCRLF noSectionBackup)) (stripCRLF noSectionBackup) =
        [⟨"5", "Lamp", "Load", "", "", "Main Area"⟩]
    ∧ ([] : List VDevice) ≠ [⟨"5", "Lamp", "Load", "", "", "Main Area"⟩] := by
  refine ⟨by decide, by decide, by decide⟩

/-- Claim C9 (amended): a parse failure of the structured tier is caught
locally and falls through to the direct regex tier, which runs on the full
(newline-stripped) text with the already collected areas — shown generally
both for every parse oracle that throws on the extracted section and for
every oracle whose returned result lacks a truthy object collection (the
checks of lines 329-335), and concretely on deliberately malformed XML
where the direct tier still recovers the Load; but when the raw text has no
`<Objects>` or `<Project>` section the parser returns the accumulated
(possibly empty) result without invoking the direct tier.  No parse error
propagates: the result is always a plain value. -/
theorem parse_error_fallthrough :
    (∀ (parse : String → Except Unit JVal) (omitS range s xml : String),
       objectsXmlOf (stripCRLF s) = some xml →
       parse xml = Except.error () →
       processBackupFile parse omitS range s [] =
         (extractAreasDirectly [] (stripCRLF s),
          extractDevicesDirectly omitS range (extractAreasDirectly [] (stripCRLF s))
            (stripCRLF s)))
    ∧ (∀ (parse : String → Except Unit JVal) (omitS range s xml : String) (result : JVal),
       objectsXmlOf (stripCRLF s) = some xml →
       parse xml = Except.ok result →
       (!(jTruthy (jGet result "Objects")) ||
        !(jTruthy (jGet (jGet result "Objects") "Object"))) = true →
       processBackupFile parse omitS range s [] =
         (extractAreasDirectly [] (stripCRLF s),
          extractDevicesDirectly omitS range (extractAreasDirectly [] (stripCRLF s))
            (stripCRLF s)))
    ∧ (processBackupFile (fun _ => Except.error ()) "" "" malformedBackup []).2 =
        [⟨"5", "Lamp", "Load", "", "", "Main Area"⟩] := by
  refine ⟨?_, ?_, by decide⟩
  · intro parse omitS range s xml h1 h2
    simp only [processBackupFile, processBackupStripped, h1, h2]
  · intro parse omitS range s xml result h1 h2 h3
    simp only [processBackupFile, processBackupStripped, h1, h2, h3, if_true]

/-- Witness for the amended claim C9 at concrete inputs: an oracle that
throws and an oracle returning an empty object (hence no object collection)
both make processing the malformed backup equal the direct-tier result on
the stripped text. -/
theorem parse_error_fallthrough_witness :
    processBackupFile (fun _ => Except.error ()) "" "" malformedBackup [] =
      (extractAreasDirectly [] (stripCRLF malformedBackup),
       extractDevicesDirectly "" "" (extractAreasDirectly [] (stripCRLF malformedBackup))
         (stripCRLF malformedBackup))
    ∧ processBackupFile (fun _ => Except.ok (JVal.obj [])) "" "" malformedBackup [] =
      (extractAreasDirectly [] (stripCRLF malformedBackup),
       extractDevicesDirectly "" "" (extractAreasDirectly [] (stripCRLF malformedBackup))
         (stripCRLF malformedBackup)) :=
  ⟨parse_error_fallthrough.1 (fun _ => Except.error ()) "" "" malformedBackup
     malformedBackup (by decide) rfl,
   parse_error_fallthrough.2.1 (fun _ => Except.ok (JVal.obj [])) "" "" malformedBackup
     malformedBackup (JVal.obj []) (by decide) rfl (by decide)⟩

/-- Claim C10: the range filter can only exclude a device whose VID string
parses to a number under JavaScript `parseInt`; when the parse is `NaN` the
shared skip guard of both tiers reduces to exact string membership in the
comma-separated, trimmed omit list. -/
theorem range_filter_requires_numeric_vid :
    ∀ (omitS range vid : String), jsParseInt vid = none →
      vidExcluded omitS range vid = (omitEntries omitS).contains vid := by
  intro omitS range vid h
  unfold vidExcluded
  rw [h]
  simp

/-- Witness for claim C10 at a concrete input: the VID `alpha` does not
parse, so only the omit list can exclude it (and here it does, by exact
string equality). -/
theorem range_filter_requires_numeric_vid_witness :
    vidExcluded "alpha,7" "1,3" "alpha" = (omitEntries "alpha,7").contains "alpha" :=
  range_filter_requires_numeric_vid "alpha,7" "1,3" "alpha" (by decide)
